import Mathlib

/-!
Verification of the core of the SDC self-descriptive calibration data
library (`include/sdc-base.hh`) against its specification.

The development shallowly embeds the relevant C++ entities over the key
type instantiated to `Nat` with the default (unspecialized)
`ValidityTraits`: `unset = 0`, `less = (<)`, `advance = (+1)`,
`strRangeDelimiter = '-'`.  Machine `size_t` overflow is modelled
explicitly (`% 2^64`) where the source's `std::stoul` can produce it.
Stateful C++ code (mutable loader defaults, the validity-index multimap)
is embedded by explicit state passing; fallible code returns `Except`.

The `std::multimap` of the validity index is modelled by a list sorted by
key in which `emplace` inserts a new pair after all pairs with a less or
equal key (this is exactly `std::multimap::emplace`, which inserts at
`upper_bound`, preserving insertion order among equal keys).  Hash
containers (`std::unordered_map`, `std::unordered_multimap`) are modelled
by association lists in insertion order; no claim below depends on the
unspecified iteration order of the hash containers except where noted.
-/

namespace Sdc

/-- `ULONG_MAX + 1 = 2^64` on the 64-bit hosts the source targets. -/
def ulongMod : Nat := 18446744073709551616

/-- `ValidityTraits<T>::unset = 0` (`sdc-base.hh:246`). -/
def VT.unset : Nat := 0

/-- `ValidityTraits<T>::is_set(id) { return unset != id; }` (`sdc-base.hh:248`). -/
def VT.is_set (id : Nat) : Bool := VT.unset ≠ id

/-- `ValidityTraits<T>::less(a, b) { return a < b; }` (`sdc-base.hh:249`). -/
def VT.less (a b : Nat) : Bool := a < b

/-- `ValidityTraits<T>::advance(rn) { ++rn; }` (`sdc-base.hh:251`).  For
the `size_t` instantiation the increment wraps modulo `2^64`: advancing
`ULONG_MAX` yields `0`, the unset value. -/
def VT.advance (rn : Nat) : Nat := (rn + 1) % ulongMod

/-- The range-delimiter character of the default traits
(`strRangeDelimiter = '-'`, `sdc-base.hh:247`). -/
def VT.strRangeDelimiter : Char := '-'

/-- `ValidityRange<T>` (`sdc-base.hh:265`): a validity period
`[vFrom, vTo)`; the source fields are named `from`/`to` (renamed here
because `from` is a Lean keyword).  Either bound may be the `unset`
value. -/
structure VRange where
  vFrom : Nat
  vTo : Nat
deriving DecidableEq, Repr

/-- `ValidityRange<T>::operator&` (`sdc-base.hh:273-296`): pointwise
intersection; for each bound the tighter of the two set values, else the
sole set one, else unset. -/
def VRange.inter (a b : VRange) : VRange :=
  ⟨if VT.is_set a.vFrom then
      if VT.is_set b.vFrom then
        (if VT.less a.vFrom b.vFrom then b.vFrom else a.vFrom)
      else a.vFrom
    else
      (if VT.is_set b.vFrom then b.vFrom else VT.unset),
   if VT.is_set a.vTo then
      if VT.is_set b.vTo then
        (if VT.less a.vTo b.vTo then a.vTo else b.vTo)
      else a.vTo
    else
      (if VT.is_set b.vTo then b.vTo else VT.unset)⟩

/-- `ValidityRange<T>::operator bool` (`sdc-base.hh:298-307`): non-empty
iff at least one bound is unset, otherwise `from < to`. -/
def VRange.nonEmpty (r : VRange) : Bool :=
  if !(VT.is_set r.vFrom && VT.is_set r.vTo) then true
  else VT.less r.vFrom r.vTo

/-- The error taxonomy of `sdc::errors` (`sdc-base.hh:337-718`), restricted
to the kinds the verified routines can raise.  `parserError`,
`noMetadataEntryInFile`, `noCurrentMetadataEntry` and
`noColumnDefinedForTable` form the `ParserError` family (the latter three
are subclasses); their `docID`/`lineNo` fields are the inherited
`ParserError::docID`/`lineNo`, defaulted to `""`/`0` by the subclass
constructors.  `ioError` carries `IOError::filename`.  `loaderAPIError`
drops the source's diagnostic loader pointer (an address). -/
inductive Err where
  | parserError (reason tok docID : String) (lineNo : Nat)
  | noMetadataEntryInFile (name docID : String) (lineNo : Nat)
  | noCurrentMetadataEntry (name docID : String) (lineNo : Nat)
  | noColumnDefinedForTable (name docID : String) (lineNo : Nat)
  | ioError (details filename : String)
  | loaderAPIError (reason : String)
  | unknownDataType (typeName : String)
  | noCalibrationData (typeName : String) (key : Nat)
deriving DecidableEq, Repr

/-- `std::isspace` in the default locale: the six standard white-space
characters. -/
def isSpaceChar (c : Char) : Bool :=
  c = ' ' || c = '\t' || c = '\n' || c = '\x0b' || c = '\x0c' || c = '\r'

/-- `sdc::aux::trim` (`sdc-base.hh:782-795`): strips white space from both
ends.  The source drops leading spaces first, then walks back from the
end; because after the first step a non-empty buffer starts with a
non-space, that right-to-left walk removes exactly the trailing spaces,
which is what the `reverse`/`dropWhile`/`reverse` below computes. -/
def trim (s : List Char) : List Char :=
  let b := s.dropWhile isSpaceChar
  if b.isEmpty then b else ((b.reverse.dropWhile isSpaceChar).reverse)

/-- Value of a list of decimal digit characters. -/
def digitsVal (l : List Char) : Nat :=
  l.foldl (fun a c => a * 10 + (c.toNat - 48)) 0

/-- Failure modes of the host numeric parser (`std::invalid_argument`,
`std::out_of_range`). -/
inductive CastErr where
  | invalidArgument
  | outOfRange
deriving DecidableEq, Repr

/-- Model of `std::stoul` (base 10): skip leading white space, consume an
optional single sign, then a non-empty run of decimal digits (trailing
characters are ignored); `invalid_argument` if no digits follow,
`out_of_range` if the digit value exceeds `ULONG_MAX`, and a negative
sign wraps modulo `2^64` as `strtoul` specifies. -/
def stoulM (s : List Char) : Except CastErr Nat :=
  let s1 := s.dropWhile isSpaceChar
  let (neg, s2) : Bool × List Char :=
    match s1 with
    | '-' :: r => (true, r)
    | '+' :: r => (false, r)
    | r => (false, r)
  let ds := s2.takeWhile Char.isDigit
  if ds.isEmpty then .error .invalidArgument
  else
    let v := digitsVal ds
    if ulongMod ≤ v then .error .outOfRange
    else .ok (if neg then (ulongMod - v) % ulongMod else v)

/-- `ValidityTraits<T>::from_string` (`sdc-base.hh:1953-1956`), which
forwards to `aux::lexical_cast<size_t>` (`sdc-base.hh:975-990`):
`std::stoul` with its exceptions mapped to `errors::ParserError` carrying
the offending token. -/
def keyFromString (s : List Char) : Except Err Nat :=
  match stoulM s with
  | .ok v => .ok v
  | .error .invalidArgument =>
      .error (.parserError "stoul(): no conversion can be performed"
        (String.mk s) "" 0)
  | .error .outOfRange =>
      .error (.parserError "stoul(): out of range" (String.mk s) "" 0)

/-- `LexicalTraits<ValidityRange<T>>::from_string` (`sdc-base.hh:1092-1135`)
over the default traits (delimiter `'-'`).  Control flow mirrors the
source exactly: the FROM part is parsed only when the delimiter position
is non-zero (`if(delimPos)`, where "not found" `npos` also counts as
non-zero); a FROM of `"..."` raises `ParserError`; a found delimiter
makes the TO part parse `"..."` as unset or advance the parsed value
once; with no delimiter a bare value must be set and `to` becomes its
successor.  The `catch` clauses of the source for `std::invalid_argument`
and `std::out_of_range` are dead on this path because
`lexical_cast<size_t>` already converts them to `ParserError`. -/
def vrDelimPos (strexpr : String) : Option Nat :=
  strexpr.data.findIdx? (fun c => c == VT.strRangeDelimiter)

/-- The trimmed FROM token: `aux::trim(strexpr.substr(0, delimPos))`
(`substr(0, npos)` is the whole string). -/
def vrFromTok (strexpr : String) : List Char :=
  trim (match vrDelimPos strexpr with
    | none => strexpr.data
    | some d => strexpr.data.take d)

def vrFromString (strexpr : String) : Except Err VRange :=
  let fromRes : Except Err Nat :=
    if vrDelimPos strexpr = some 0 then .ok VT.unset
    else
      if vrFromTok strexpr = "...".data then
        .error (.parserError
          "Left open bounds for validity range is not permitted" strexpr "" 0)
      else keyFromString (vrFromTok strexpr)
  match fromRes with
  | .error e => .error e
  | .ok fromV =>
    match vrDelimPos strexpr with
    | some d =>
      let subtok := trim (strexpr.data.drop (d + 1))
      if subtok = "...".data then .ok ⟨fromV, VT.unset⟩
      else
        match keyFromString subtok with
        | .error e => .error e
        | .ok toV => .ok ⟨fromV, VT.advance toV⟩
    | none =>
      if !VT.is_set fromV then
        .error (.parserError "Bad runs range expression" strexpr "" 0)
      else .ok ⟨fromV, VT.advance fromV⟩

/-- `sdc::aux::MetaInfo` (`sdc-base.hh:1676-1927`): a metadata dictionary.
`entries` models the underlying `std::unordered_multimap<std::string,
std::pair<size_t, std::string>>` as its contents in insertion order
(key, line number, raw value).  `cache` models the mutable typed-value
cache: its keys `(canonical name, defining line, type tag)` mirror the
source's `CacheKey` (the `std::type_info` tag becomes a `Nat`), and the
stored type-erased parsed value is represented by the raw string it was
parsed from.  `aliases`/`revAliases` model the two alias hash maps. -/
structure MetaInfo where
  entries : List (String × Nat × String)
  cache : List ((String × Nat × Nat) × String)
  aliases : List (String × String)
  revAliases : List (String × String)
deriving DecidableEq, Repr

/-- `MetaInfo()` default constructor: everything empty. -/
def MetaInfo.empty : MetaInfo := ⟨[], [], [], []⟩

/-- `MetaInfo::resolve_alias_if_need` (`sdc-base.hh:1762-1767`): returns
the canonical name bound to `name` in the alias map, or `name` itself. -/
def MetaInfo.resolve (m : MetaInfo) (name : String) : String :=
  match m.aliases.find? (fun p => p.1 = name) with
  | none => name
  | some p => p.2

/-- `MetaInfo::define_alias` (`sdc-base.hh:1750-1760`): resolves the
canonical name, then `emplace`s the binding; an existing binding to a
different canonical name makes it return `false` without change. -/
def MetaInfo.define_alias (m : MetaInfo) (aliasName trueName' : String) :
    MetaInfo × Bool :=
  let trueName := m.resolve trueName'
  match m.aliases.find? (fun p => p.1 = aliasName) with
  | some p => (m, p.2 = trueName)
  | none =>
      ({ m with aliases := m.aliases ++ [(aliasName, trueName)],
                revAliases := m.revAliases ++ [(trueName, aliasName)] }, true)

/-- `std::map::insert` used through `std::inserter` by
`MetaInfo::operator[]`: insert keeping the list sorted by line number,
*without* replacing an entry already present for that line. -/
def mapInsertNoReplace (l : List (Nat × String)) (p : Nat × String) :
    List (Nat × String) :=
  match l with
  | [] => [p]
  | q :: t =>
      if p.1 < q.1 then p :: q :: t
      else if p.1 = q.1 then q :: t
      else q :: mapInsertNoReplace t p

/-- `MetaInfo::operator[]` (`sdc-base.hh:1774-1786`): all `(line, value)`
pairs stored under the canonical name, as a `std::map` keyed by line
number (sorted ascending; for duplicate lines the first pair reached in
iteration wins, which in this model is the first-inserted one). -/
def MetaInfo.linesFor (m : MetaInfo) (name' : String) : List (Nat × String) :=
  let name := m.resolve name'
  ((m.entries.filter (fun e => e.1 = name)).map (fun e => e.2)).foldl
    mapInsertNoReplace []

/-- `MetaInfo::get_strexpr` (`sdc-base.hh:1797-1815`): value of the latest
entry for the (alias-resolved) key whose line is `≤ lineNo`, together
with that defining line; `NoMetadataEntryInFile` when the key is absent
altogether, `NoCurrentMetadataEntry` when present only on later lines. -/
def MetaInfo.get_strexpr (m : MetaInfo) (name' : String)
    (lineNo : Nat) : Except Err (String × Nat) :=
  let vs := m.linesFor name'
  if vs.isEmpty then .error (.noMetadataEntryInFile name' "" 0)
  else
    match (vs.filter (fun p => p.1 ≤ lineNo)).getLast? with
    | none => .error (.noCurrentMetadataEntry name' "" lineNo)
    | some p => .ok (p.2, p.1)

/-- `MetaInfo::set` (`sdc-base.hh:1879-1886`): resolve the alias, then
`emplace` the `(line, value)` pair under the canonical name. -/
def MetaInfo.set (m : MetaInfo) (name' value : String) (lineNo : Nat) :
    MetaInfo :=
  { m with entries := m.entries ++ [(m.resolve name', lineNo, value)] }

/-- `MetaInfo::drop` (`sdc-base.hh:1888-1903`): erase every cache row and
every multimap entry whose key equals `name` (the *raw* name — the source
does not resolve aliases here). -/
def MetaInfo.drop (m : MetaInfo) (name : String) : MetaInfo :=
  { m with cache := m.cache.filter (fun c => c.1.1 ≠ name),
           entries := m.entries.filter (fun e => e.1 ≠ name) }

/-- `MetaInfo(const MetaInfo&)` (`sdc-base.hh:1736`): the copy constructor
initializes only the parent multimap from the source; `_cache`,
`_aliases` and `_revAliases` are default-initialized (empty). -/
def MetaInfo.copyCtor (o : MetaInfo) : MetaInfo := ⟨o.entries, [], [], []⟩

/-- `MetaInfo::operator=` (`sdc-base.hh:1737-1744`) for distinct objects
(self-assignment is skipped by the source and is the identity): clears
and re-inserts the multimap entries from `o`, clears the cache, and
leaves the target's alias maps untouched. -/
def MetaInfo.assignFrom (target o : MetaInfo) : MetaInfo :=
  ⟨o.entries, [], target.aliases, target.revAliases⟩

/-- `ColumnsOrder` (`sdc-base.hh:1214`): an `unordered_map` from column
name to zero-based index, modelled as an association list in iteration
order.  (No claim below depends on the hash map's iteration order except
through which offending column an error message names.) -/
abbrev ColumnsOrder := List (String × Nat)

/-- The `snprintf` message of `ColumnsOrder::interpret`
(`sdc-base.hh:1259-1263`). -/
def columnsMismatchMsg (idx : Nat) (name : String) (ntoks : Nat) : String :=
  "Columns number mismatch; no column #" ++ toString (idx + 1) ++
  " expected for \"" ++ name ++ "\" in current line (has only " ++
  toString ntoks ++ " columns)"

/-- `unordered_map::operator[] =` on the `CSVLine` being built: assign to
an existing key or insert a new one. -/
def csvLineInsert (l : List (String × String)) (name tok : String) :
    List (String × String) :=
  match l with
  | [] => [(name, tok)]
  | p :: t => if p.1 = name then (name, tok) :: t
              else p :: csvLineInsert t name tok

/-- Loop body of `ColumnsOrder::interpret` (`sdc-base.hh:1252-1268`): for
each `(name, index)` of the directive, fail with `ParserError` naming the
column and the token count when the row has at most `index` tokens, else
record `row[index]` under `name`.  (`toks.getD idx ""` is only reached
under `idx < toks.length`, where it equals the source's `toks[idx]`.) -/
def interpretGo (toks : List String) :
    List (String × Nat) → List (String × String) →
    Except Err (List (String × String))
  | [], acc => .ok acc
  | (name, idx) :: rest, acc =>
      if toks.length ≤ idx then
        .error (.parserError (columnsMismatchMsg idx name toks.length) "" "" 0)
      else interpretGo toks rest (csvLineInsert acc name (toks.getD idx ""))

/-- `ColumnsOrder::interpret` (`sdc-base.hh:1252-1268`) without the
optional load log. -/
def ColumnsOrder.interpret (ord : ColumnsOrder) (toks : List String) :
    Except Err (List (String × String)) :=
  interpretGo toks ord []

/-- `ColumnsOrder::CSVLine::operator()` (`sdc-base.hh:1221-1226`): token
of the column with the given semantics, or `NoColumnDefinedForTable`. -/
def csvLineGet (l : List (String × String)) (name : String) :
    Except Err String :=
  match l.find? (fun p => p.1 = name) with
  | none => .error (.noColumnDefinedForTable name "" 0)
  | some p => .ok p.2

/-- `ExtCSVLoader<KeyT>::ParsingState` (`sdc-base.hh:2875-2902`), the
reading-mode grammar state: current block range and type, the requested
type and key, and the metadata environment.  The CSV callback `cllb` held
by the source object is passed explicitly to `handle_csv` so theorems can
quantify over it; the grammar member is not needed by `handle_csv`. -/
structure ParsingState where
  cVal : VRange
  cType : String
  forType : String
  forKey : Nat
  md : MetaInfo
deriving Repr

/-- `ParsingState::handle_csv` (`sdc-base.hh:2938-2954`): the row gate of
reading mode.  A row of another type, or one whose block range does not
include `forKey` (note the raw `<`/`==` comparisons of the source rather
than `VT.less`; identical for the integral instantiation), is ignored by
returning `true` without invoking the callback.  Otherwise the line
number is formatted with `"%zu"` (decimal, `Nat.repr`) and stored as the
synthetic `@lineNo` metadata entry (at the `set` default line
`std::numeric_limits<size_t>::min() = 0`), the callback is invoked, and
the entry is dropped again. -/
def ParsingState.handle_csv (st : ParsingState)
    (cllb : MetaInfo → Nat → String → Bool)
    (line : String) (lineNo : Nat) : Bool × ParsingState :=
  if st.cType ≠ st.forType then (true, st)
  else if VT.is_set st.cVal.vFrom && decide (st.forKey < st.cVal.vFrom) then
    (true, st)
  else if VT.is_set st.cVal.vTo &&
      (decide (st.cVal.vTo < st.forKey) || st.cVal.vTo == st.forKey) then
    (true, st)
  else
    let md1 := st.md.set "@lineNo" (Nat.repr lineNo) 0
    let ret := cllb md1 lineNo line
    (ret, { st with md := md1.drop "@lineNo" })

/-- `ValidityIndex::DocumentEntry` (`sdc-base.hh:1980-1996`): document
identifier, end of validity (`validTo`, considered only if set) and the
user payload. -/
structure DocumentEntry (α : Type) where
  docID : String
  validTo : Nat
  auxInfo : α
deriving DecidableEq, Repr

/-- `std::multimap::emplace` on the sorted-list model: insert `(k, e)`
after every pair whose key is `≤ k` (`emplace` inserts at the key's
`upper_bound`, so insertion order among equal keys is preserved). -/
def mmapEmplace {α : Type} (l : List (Nat × DocumentEntry α)) (k : Nat)
    (e : DocumentEntry α) : List (Nat × DocumentEntry α) :=
  match l with
  | [] => [(k, e)]
  | q :: t => if k < q.1 then (k, e) :: q :: t else q :: mmapEmplace t k e

/-- `ValidityIndex` (`sdc-base.hh:1973-2163`): the `_types` dictionary
from data-type name to the per-type `DocsIndex` multimap. -/
structure ValidityIndex (α : Type) where
  types : List (String × List (Nat × DocumentEntry α))
deriving DecidableEq, Repr

/-- The empty index. -/
def ValidityIndex.empty (α : Type) : ValidityIndex α := ⟨[]⟩

/-- `_types.find(typeName)` on the association-list model. -/
def ValidityIndex.findType {α : Type} (idx : ValidityIndex α)
    (typeName : String) : Option (List (Nat × DocumentEntry α)) :=
  (idx.types.find? (fun p => p.1 = typeName)).map (fun p => p.2)

/-- Helper of `add_entry`: `_types.emplace(dataType, DocsIndex())`
followed by `emplace` into that per-type multimap. -/
def addToTypes {α : Type} :
    List (String × List (Nat × DocumentEntry α)) → String → Nat →
    DocumentEntry α → List (String × List (Nat × DocumentEntry α))
  | [], t, k, e => [(t, [(k, e)])]
  | (t', l) :: rest, t, k, e =>
      if t' = t then (t', mmapEmplace l k e) :: rest
      else (t', l) :: addToTypes rest t k e

/-- `ValidityIndex::add_entry` (`sdc-base.hh:2008-2026`): memorize a
document entry of a data type with its validity interval. -/
def ValidityIndex.add_entry {α : Type} (idx : ValidityIndex α)
    (docID dataType : String) (vFrom vTo : Nat) (auxInfo : α) :
    ValidityIndex α :=
  ⟨addToTypes idx.types dataType vFrom ⟨docID, vTo, auxInfo⟩⟩

/-- The stale test of `ValidityIndex::updates` (`sdc-base.hh:2064-2068`):
an entry is skipped iff its `validTo` is set and `validTo ≤ key`
(`less(validTo, key) || validTo == key`). -/
def staleAt {α : Type} (key : Nat) (e : DocumentEntry α) : Bool :=
  VT.is_set e.validTo && (VT.less e.validTo key || e.validTo == key)

/-- `ValidityIndex::updates` (`sdc-base.hh:2047-2073`): the still-valid
entries for `key`, in index order.  The iteration from `begin()` to
`upper_bound(key)` is `takeWhile (·.1 ≤ key)` on the sorted-list model of
the multimap; stale entries are skipped. -/
def ValidityIndex.updates {α : Type} (idx : ValidityIndex α)
    (typeName : String) (key : Nat) (noTypeIsOk : Bool) :
    Except Err (List (Nat × DocumentEntry α)) :=
  match idx.findType typeName with
  | none =>
      if noTypeIsOk then .ok [] else .error (.unknownDataType typeName)
  | some l =>
      .ok (((l.takeWhile (fun p => decide (p.1 ≤ key))).filter
        (fun p => !staleAt key p.2)))

/-- The validity test of `ValidityIndex::latest` (`sdc-base.hh:2140-2142`):
`validTo` unset or `key < validTo`. -/
def validAt {α : Type} (key : Nat) (e : DocumentEntry α) : Bool :=
  !VT.is_set e.validTo || VT.less key e.validTo

/-- `ValidityIndex::latest` (`sdc-base.hh:2126-2153`): starting from
`upper_bound(key)`, walk backwards and return the first entry that is
valid at `key`; `NoCalibrationData` when the walk reaches `begin()`
without a hit or `upper_bound(key) == begin()`; `UnknownDataType` for an
unknown type.  On the sorted-list model the backward walk from
`upper_bound` is `find?` on the reversed `takeWhile (·.1 ≤ key)` prefix
(the guard re-skipping entries with `key < from` can only fire at the
initial `upper_bound` position, which is outside that prefix). -/
def ValidityIndex.latest {α : Type} (idx : ValidityIndex α)
    (typeName : String) (key : Nat) :
    Except Err (Nat × DocumentEntry α) :=
  match idx.findType typeName with
  | none => .error (.unknownDataType typeName)
  | some l =>
      match (l.takeWhile (fun p => decide (p.1 ≤ key))).reverse.find?
          (fun p => validAt key p.2) with
      | some r => .ok r
      | none => .error (.noCalibrationData typeName key)

/-- Well-formedness invariant of the multimap model: every per-type list
is sorted by key (non-strictly).  Any index built with `add_entry` has
it. -/
def VIdxWF {α : Type} (idx : ValidityIndex α) : Prop :=
  ∀ p ∈ idx.types, p.2.Pairwise (fun a b => a.1 ≤ b.1)

/-- `Documents::iLoader::Defaults` (`sdc-base.hh:2214-2237`): externally
set validity defaults of a loader — default data type, default range and
baseline metadata. -/
structure Defaults where
  dataType : String
  validityRange : VRange
  baseMD : MetaInfo
deriving DecidableEq, Repr

/-- `Documents::DataBlock` (`sdc-base.hh:2178-2186`): a data block found
in a document (type, validity range, intradocument start marker). -/
structure DataBlock where
  dataType : String
  validityRange : VRange
  blockBgn : Nat
deriving DecidableEq, Repr

/-- `Documents::DocumentLoadingState` (`sdc-base.hh:2289-2306`): per-entry
aux payload — loader defaults snapshot at pre-parsing, the loader handle
(a `shared_ptr`, modelled as an index into `DocState.loaders`), and the
block start marker. -/
structure DocumentLoadingState where
  docDefaults : Defaults
  loaderIdx : Nat
  dataBlockBgn : Nat
deriving DecidableEq, Repr

/-- The virtual behaviour of an `iLoader` implementation
(`sdc-base.hh:2206-2284`).  `get_doc_struct` and `read_data` receive the
loader's current `defaults` and return the (possibly mutated) defaults
together with their outcome; everything else the source callbacks do
(streaming rows to the collector, seeding `@docID`) is internal to the
behaviour and not observed by the claims below. -/
structure LoaderBehavior where
  can_handle : String → Bool
  get_doc_struct : Defaults → String → Defaults × Except Err (List DataBlock)
  read_data : Defaults → String → Nat → Nat → Defaults × Except Err Unit

/-- A loader object: its behaviour plus its mutable `defaults` record. -/
structure Loader where
  behavior : LoaderBehavior
  defaults : Defaults

/-- `Documents` controller state (`sdc-base.hh:2196-2655`): the loader
list and the validity index with `DocumentLoadingState` payloads. -/
structure DocState where
  loaders : List Loader
  validityIndex : ValidityIndex DocumentLoadingState

/-- Loader selection loop of `Documents::add` (`sdc-base.hh:2426-2434`):
first registered loader whose `can_handle(docID)` is true. -/
def selectLoader (loaders : List Loader) (docID : String) : Option Nat :=
  loaders.findIdx? (fun h => h.behavior.can_handle docID)

/-- The three defaults overrides at the head of `Documents::add`
(`sdc-base.hh:2438-2443`): each `(flag, value)` pair replaces the
corresponding defaults field when its flag is set. -/
def applyOverrides (d : Defaults) (ovT : Bool × String)
    (ovV : Bool × VRange) (ovM : Bool × MetaInfo) : Defaults :=
  let d1 := if ovT.1 then { d with dataType := ovT.2 } else d
  let d2 := if ovV.1 then { d1 with validityRange := ovV.2 } else d1
  if ovM.1 then { d2 with baseMD := ovM.2 } else d2

/-- `LoaderAPIError` message for an empty block data type
(`sdc-base.hh:2448-2450`; quoting characters simplified). -/
def emptyTypeMsg (docID : String) : String :=
  "iLoader implementation returned empty type for data block (docID=" ++
  docID ++ ")"

/-- `LoaderAPIError` message for an all-unset block validity range
(`sdc-base.hh:2459-2461`; quoting characters simplified). -/
def emptyRangeMsg (docID : String) : String :=
  "iLoader implementation returned empty validity range for data block" ++
  " (docID=" ++ docID ++ ")"

/-- The `catch` enrichment shared by `Documents::add` and
`Documents::load_update_into`: a `ParserError`-family error with an empty
`docID` gets the document's id (`sdc-base.hh:2371-2373,2470-2472`), an
`IOError` with an empty `filename` gets it as filename
(`sdc-base.hh:2376-2378,2475-2477`); other errors pass unchanged. -/
def enrich (docID : String) : Err → Err
  | .parserError r t "" n => .parserError r t docID n
  | .noMetadataEntryInFile name "" n => .noMetadataEntryInFile name docID n
  | .noCurrentMetadataEntry name "" n => .noCurrentMetadataEntry name docID n
  | .noColumnDefinedForTable name "" n => .noColumnDefinedForTable name docID n
  | .ioError d "" => .ioError d docID
  | e => e

/-- The block loop of `Documents::add` (`sdc-base.hh:2446-2474`): for each
block, throw `LoaderAPIError` on an empty data type, throw
`LoaderAPIError` when *both* bounds of the block's validity range are
unset (the loader generated no validity), else `add_entry` with the
loader's current defaults `dfts`, the loader handle `li` and the block
start captured into the aux payload.  Entries added before a throw stay
in the index (the source mutates `validityIndex` in place), so the
partially extended index is returned alongside the error. -/
def processBlocks (docID : String) (li : Nat) (dfts : Defaults) :
    List DataBlock → ValidityIndex DocumentLoadingState →
    ValidityIndex DocumentLoadingState × Except Err Unit
  | [], idx => (idx, .ok ())
  | b :: rest, idx =>
      if b.dataType = "" then
        (idx, .error (.loaderAPIError (emptyTypeMsg docID)))
      else if !VT.is_set b.validityRange.vFrom &&
          !VT.is_set b.validityRange.vTo then
        (idx, .error (.loaderAPIError (emptyRangeMsg docID)))
      else
        processBlocks docID li dfts rest
          (idx.add_entry docID b.dataType b.validityRange.vFrom
            b.validityRange.vTo ⟨dfts, li, b.blockBgn⟩)

/-- `Documents::add` (`sdc-base.hh:2409-2483`).  With a null `loader?` the
first accepting loader is selected (`.ok false` when none accepts).  The
loader's defaults are saved, the overrides applied, `get_doc_struct` runs
on the overridden defaults (and may mutate them), the blocks are indexed
by `processBlocks`, and on *every* exit path — success, `ParserError`,
`IOError` or any other exception — the saved defaults are written back
before returning; `ParserError`/`IOError` are enriched with the document
id.  Returns `.ok (blocks not empty)` on success.  The `[i]?` miss branch
is unreachable for the source (which receives a live loader pointer) and
returns the state unchanged. -/
def Documents.addWith (st : DocState) (docID : String) (ovT : Bool × String)
    (ovV : Bool × VRange) (ovM : Bool × MetaInfo) (i : Nat) :
    DocState × Except Err Bool :=
  match st.loaders[i]? with
  | none => (st, .ok false)
  | some ldr =>
      -- `prevDfts := ldr.defaults` is saved; `get_doc_struct` receives the
      -- overridden defaults and may mutate them further (returning `d2`);
      -- every exit path writes the saved `prevDfts` back into the loader,
      -- i.e. stores `{ ldr with defaults := ldr.defaults }` at slot `i`.
      match ldr.behavior.get_doc_struct
          (applyOverrides ldr.defaults ovT ovV ovM) docID with
      | (_, .error e) =>
          ({ st with loaders :=
              st.loaders.set i { ldr with defaults := ldr.defaults } },
            .error (enrich docID e))
      | (d2, .ok docStruct) =>
          match processBlocks docID i d2 docStruct st.validityIndex with
          | (idx2, .error e) =>
              ({ loaders :=
                  st.loaders.set i { ldr with defaults := ldr.defaults },
                 validityIndex := idx2 }, .error (enrich docID e))
          | (idx2, .ok _) =>
              ({ loaders :=
                  st.loaders.set i { ldr with defaults := ldr.defaults },
                 validityIndex := idx2 }, .ok (!docStruct.isEmpty))

/-- Entry point of `Documents::add`: loader selection (`sdc-base.hh:
2426-2434`) followed by `addWith` on the chosen loader. -/
def Documents.add (st : DocState) (docID : String) (ovT : Bool × String)
    (ovV : Bool × VRange) (ovM : Bool × MetaInfo) (loader? : Option Nat) :
    DocState × Except Err Bool :=
  match loader? with
  | some i => Documents.addWith st docID ovT ovV ovM i
  | none =>
      match selectLoader st.loaders docID with
      | none => (st, .ok false)
      | some i => Documents.addWith st docID ovT ovV ovM i

/-- `Documents::load_update_into` (`sdc-base.hh:2314-2386`), with the
statically-typed collection and row callback abstracted into the loader
behaviour's `read_data` (their contents are not observed by the claims
below).  The loader referenced from the entry's aux payload has its live
defaults replaced by the snapshot saved at discovery, `read_data` runs,
and the saved defaults `dftsBck` are restored on every exit path
(`ParserError`, `IOError`, any other exception, and normal return), with
document-id enrichment of parser and I/O errors. -/
def Documents.load_update_into (st : DocState)
    (upd : Nat × DocumentEntry DocumentLoadingState) (forKey : Nat) :
    DocState × Except Err Unit :=
  match st.loaders[upd.2.auxInfo.loaderIdx]? with
  | none => (st, .ok ())
  | some ldr =>
      -- `dftsBck := ldr.defaults` is saved, the loader's live defaults are
      -- replaced by the snapshot `docDefaults` for the `read_data` call, and
      -- every exit path writes `dftsBck` back.
      match ldr.behavior.read_data upd.2.auxInfo.docDefaults upd.2.docID
          forKey upd.2.auxInfo.dataBlockBgn with
      | (_, .error e) =>
          ({ st with loaders := st.loaders.set upd.2.auxInfo.loaderIdx { ldr with defaults := ldr.defaults } },
            .error (enrich upd.2.docID e))
      | (_, .ok _) =>
          ({ st with loaders := st.loaders.set upd.2.auxInfo.loaderIdx { ldr with defaults := ldr.defaults } },
            .ok ())

/-- The row gate of `ParsingState::handle_csv` as a single predicate: the
row is forwarded iff the block type matches the requested one and the
requested key lies inside the current range (`from` unset or
`from ≤ key`, and `to` unset or `key < to`). -/
def rowAccepted (st : ParsingState) : Bool :=
  (st.cType == st.forType)
  && !(VT.is_set st.cVal.vFrom && decide (st.forKey < st.cVal.vFrom))
  && !(VT.is_set st.cVal.vTo &&
        (decide (st.cVal.vTo < st.forKey) || st.cVal.vTo == st.forKey))

/-- A data block that passes both `LoaderAPIError` checks of
`Documents::add`: non-empty data type and at least one set range
bound. -/
def goodBlock (b : DataBlock) : Bool :=
  (b.dataType ≠ "") &&
  (VT.is_set b.validityRange.vFrom || VT.is_set b.validityRange.vTo)

/-- Example metadata environment: alias `a → x` and one entry
`x = "v"` at line 1. -/
def mAliasEx : MetaInfo :=
  ((MetaInfo.empty.define_alias "a" "x").1).set "x" "v" 1

/-- Example reading-mode state: block `[10, 20)` of type `"T"`, requested
`("T", 15)`. -/
def pStateEx : ParsingState := ⟨⟨10, 20⟩, "T", "T", 15, MetaInfo.empty⟩

/-- Example index, scenario S5 of the spec: `("A", X, [10, ∞))` inserted
before `("B", X, [10, 15))`. -/
def idxS5 : ValidityIndex Unit :=
  ((ValidityIndex.empty Unit).add_entry "A" "X" 10 VT.unset ()).add_entry
    "B" "X" 10 15 ()

/-- Example index, scenario S6 of the spec: `("P", Y, [10, 20))` inserted
before `("Q", Y, [10, ∞))`. -/
def idxS6 : ValidityIndex Unit :=
  ((ValidityIndex.empty Unit).add_entry "P" "Y" 10 20 ()).add_entry
    "Q" "Y" 10 VT.unset ()

/-- Example loader behaviour returning a single block of type `"T"` with
the *empty* (but both-bounds-set) validity range `[5, 5)`; accepts every
document and leaves the defaults it receives unchanged. -/
def cexBehavior : LoaderBehavior :=
  ⟨fun _ => true,
   fun d _ => (d, .ok [⟨"T", ⟨5, 5⟩, 3⟩]),
   fun d _ _ _ => (d, .ok ())⟩

/-- Loader wrapping `cexBehavior` with default-constructed defaults. -/
def cexLoader : Loader := ⟨cexBehavior, ⟨"", ⟨0, 0⟩, MetaInfo.empty⟩⟩

/-- Controller state holding only `cexLoader` and an empty index. -/
def cexDocState : DocState := ⟨[cexLoader], ValidityIndex.empty _⟩

/-- Example loader behaviour returning one well-formed block
`("T", [10, ∞), start 2)`, leaving the received defaults unchanged. -/
def wBehavior : LoaderBehavior :=
  ⟨fun _ => true,
   fun d _ => (d, .ok [⟨"T", ⟨10, VT.unset⟩, 2⟩]),
   fun d _ _ _ => (d, .ok ())⟩

/-- Loader wrapping `wBehavior`. -/
def wLoader : Loader := ⟨wBehavior, ⟨"", ⟨0, 0⟩, MetaInfo.empty⟩⟩

/-- Controller state holding only `wLoader` and an empty index. -/
def wDocState : DocState := ⟨[wLoader], ValidityIndex.empty _⟩

/-- The greatest zero-based column index mentioned by a columns-order
directive (`0` for an empty directive). -/
def maxColIdx (ord : ColumnsOrder) : Nat :=
  ord.foldr (fun p m => max p.2 m) 0

/-- C6: intersection takes the greater set `from` (or the sole set one, or
unset) and the lesser set `to`; a both-unset range is an identity of
intersection on either side; the boolean test is true iff a bound is
unset or `from < to`; a both-set range with `to = from` is empty. -/
theorem range_algebra_spec :
    (∀ a b : VRange,
      ((VT.is_set a.vFrom ∧ VT.is_set b.vFrom) →
          (a.inter b).vFrom = max a.vFrom b.vFrom)
      ∧ ((VT.is_set a.vFrom ∧ ¬ VT.is_set b.vFrom) →
          (a.inter b).vFrom = a.vFrom)
      ∧ ((¬ VT.is_set a.vFrom ∧ VT.is_set b.vFrom) →
          (a.inter b).vFrom = b.vFrom)
      ∧ ((¬ VT.is_set a.vFrom ∧ ¬ VT.is_set b.vFrom) →
          (a.inter b).vFrom = VT.unset)
      ∧ ((VT.is_set a.vTo ∧ VT.is_set b.vTo) →
          (a.inter b).vTo = min a.vTo b.vTo)
      ∧ ((VT.is_set a.vTo ∧ ¬ VT.is_set b.vTo) →
          (a.inter b).vTo = a.vTo)
      ∧ ((¬ VT.is_set a.vTo ∧ VT.is_set b.vTo) →
          (a.inter b).vTo = b.vTo)
      ∧ ((¬ VT.is_set a.vTo ∧ ¬ VT.is_set b.vTo) →
          (a.inter b).vTo = VT.unset))
    ∧ (∀ a : VRange, a.inter ⟨VT.unset, VT.unset⟩ = a
        ∧ VRange.inter ⟨VT.unset, VT.unset⟩ a = a)
    ∧ (∀ r : VRange,
        r.nonEmpty = (!VT.is_set r.vFrom || !VT.is_set r.vTo
                      || VT.less r.vFrom r.vTo))
    ∧ (∀ f : Nat, VT.is_set f → VRange.nonEmpty ⟨f, f⟩ = false) := by
  refine ⟨fun a b => ?_, fun a => ?_, fun r => ?_, fun f hf => ?_⟩
  · obtain ⟨af, at'⟩ := a
    obtain ⟨bf, bt⟩ := b
    simp only [VRange.inter, VT.is_set, VT.less, VT.unset, ne_eq]
    refine ⟨?_, ?_, ?_, ?_, ?_, ?_, ?_, ?_⟩ <;>
      · intro h
        simp only [decide_eq_true_eq, ne_eq] at h
        split_ifs <;> simp_all <;> omega
  · obtain ⟨af, at'⟩ := a
    constructor <;>
      · simp only [VRange.inter, VT.is_set, VT.unset, ne_eq, decide_not]
        split_ifs <;> simp_all
  · obtain ⟨rf, rt⟩ := r
    simp only [VRange.nonEmpty, VT.is_set, VT.less, VT.unset]
    split_ifs with h <;> simp_all
  · simp only [VRange.nonEmpty, VT.is_set, VT.less, VT.unset] at *
    simp_all

/-- Witness for `range_algebra_spec`: concrete evaluation at
`[10, 20) ∩ [12, unset)` and the empty range `[7, 7)`. -/
theorem range_algebra_spec_witness :
    (VT.is_set (10 : Nat) ∧ VT.is_set (12 : Nat)) ∧
    (VRange.inter ⟨10, 20⟩ ⟨12, VT.unset⟩).vFrom = max 10 12 ∧
    (VRange.inter ⟨10, 20⟩ ⟨12, VT.unset⟩).vTo = 20 ∧
    VRange.nonEmpty ⟨7, 7⟩ = false := by
  refine ⟨⟨by decide, by decide⟩, ?_, ?_, ?_⟩
  · exact ((range_algebra_spec.1 ⟨10, 20⟩ ⟨12, VT.unset⟩).1 ⟨by decide, by decide⟩)
  · exact ((range_algebra_spec.1 ⟨10, 20⟩ ⟨12, VT.unset⟩).2.2.2.2.2.1
      ⟨by decide, by decide⟩)
  · exact (range_algebra_spec.2.2.2 7 (by decide))

/-- C5 counterexample: the claim "no lexical input can produce a range
whose from bound is unset while to is set" is false — `"-5"` has the
delimiter at position 0, so `if(delimPos)` skips FROM parsing and the
result is `[unset, 6)`; moreover a bare `"0"` parses to the unset value
and raises `ParserError` rather than yielding `[0, 1)`. -/
theorem vr_from_string_counterexample :
    vrFromString "-5" = .ok ⟨VT.unset, 6⟩
    ∧ VT.is_set ((6 : Nat)) = true
    ∧ vrFromString "0" =
        .error (.parserError "Bad runs range expression" "0" "" 0) :=
  ⟨rfl, rfl, rfl⟩

/-- C5 (amended): a bare single value parsing to a *set* value `v` yields
`[v, advance v)`, with `advance` the wrapping `size_t` successor (a bare
value parsing to the unset value raises a parse error); every
`FROM<delim>TO` form whose FROM and TO tokens parse yields a range whose
`to` bound is the parsed TO value advanced once — so `"100-500"` parses
to `[100, 501)` and `"500-1000"` to `[500, 1001)`; a FROM token equal to
the literal `"..."` raises a parse error; and an input whose first
character is the delimiter (empty FROM field) skips FROM parsing and
yields a range with `from` unset and `to` parsed from the TO part — a
half-open-to-the-left range *is* lexically reachable this way. -/
theorem vr_from_string_spec :
    (∀ (s : String) (v : Nat), vrDelimPos s = none →
        keyFromString (trim s.data) = .ok v → VT.is_set v →
        vrFromString s = .ok ⟨v, VT.advance v⟩)
    ∧ (∀ s : String, vrDelimPos s = none →
        keyFromString (trim s.data) = .ok 0 →
        vrFromString s =
          .error (.parserError "Bad runs range expression" s "" 0))
    ∧ ((∀ (s : String) (d f v : Nat), vrDelimPos s = some d → d ≠ 0 →
          keyFromString (vrFromTok s) = .ok f →
          trim (s.data.drop (d + 1)) ≠ "...".data →
          keyFromString (trim (s.data.drop (d + 1))) = .ok v →
          vrFromString s = .ok ⟨f, VT.advance v⟩)
        ∧ vrFromString "100-500" = .ok ⟨100, 501⟩
        ∧ vrFromString "500-1000" = .ok ⟨500, 1001⟩)
    ∧ (∀ s : String, vrFromTok s = "...".data →
        vrFromString s =
          .error (.parserError
            "Left open bounds for validity range is not permitted" s "" 0))
    ∧ (∀ (s : String) (v : Nat), vrDelimPos s = some 0 →
        keyFromString (trim (s.data.drop 1)) = .ok v →
        vrFromString s = .ok ⟨VT.unset, VT.advance v⟩) := by
  refine ⟨?_, ?_, ⟨?_, rfl, rfl⟩, ?_, ?_⟩
  · intro s v h1 h2 h3
    have hne : vrFromTok s ≠ "...".data := by
      intro hc
      have : keyFromString ("...".data) = .ok v := by
        rw [← hc]
        simpa [vrFromTok, h1] using h2
      simp [keyFromString, stoulM, trim, isSpaceChar, digitsVal] at this
    have htok : vrFromTok s = trim s.data := by simp [vrFromTok, h1]
    rw [htok] at hne
    simp only [vrFromString, h1, htok]
    simp only [reduceCtorEq, if_false, hne, if_neg, h2]
    have : (!VT.is_set v) = false := by simp [h3]
    simp [this]
  · intro s h1 h2
    have hne : trim s.data ≠ "...".data := by
      intro hc
      rw [hc] at h2
      simp [keyFromString, stoulM, trim, isSpaceChar, digitsVal] at h2
    have htok : vrFromTok s = trim s.data := by simp [vrFromTok, h1]
    simp only [vrFromString, h1, htok]
    simp [hne, h2, VT.is_set, VT.unset]
  · intro s d f v hd hd0 hf hto hv
    have hne : vrFromTok s ≠ "...".data := by
      intro hc
      rw [hc] at hf
      simp [keyFromString, stoulM, trim, isSpaceChar, digitsVal] at hf
    have h0 : ¬ vrDelimPos s = some 0 := by
      rw [hd]
      intro hc
      exact hd0 (by simpa using hc)
    simp only [vrFromString, if_neg h0, if_neg hne, hf, hd]
    simp [hto, hv, hd0]
  · intro s hs
    have h0 : vrDelimPos s ≠ some 0 := by
      intro hc
      rw [vrFromTok, hc] at hs
      simp [trim] at hs
    simp only [vrFromString, hs]
    simp [h0]
  · intro s v h1 h2
    rw [List.drop_one] at h2
    have hne : trim s.data.tail ≠ "...".data := by
      intro hc
      rw [hc] at h2
      simp [keyFromString, stoulM, trim, isSpaceChar, digitsVal] at h2
    simp only [vrFromString, h1]
    simp [h2, hne]

/-- Witness for `vr_from_string_spec`: bare `"7"` yields `[7, 8)`. -/
theorem vr_from_string_spec_witness :
    (vrDelimPos "7" = none
      ∧ keyFromString (trim "7".data) = .ok 7 ∧ VT.is_set 7)
    ∧ vrFromString "7" = .ok ⟨7, VT.advance 7⟩ :=
  ⟨⟨rfl, rfl, rfl⟩, vr_from_string_spec.1 "7" 7 rfl rfl rfl⟩

/-- Helper: `interpretGo` fails (with the message naming the first
offending column of the directive and the token count) iff some directive
entry's index is not addressable in the row. -/
theorem interpretGo_error (toks : List String) :
    ∀ (ord : List (String × Nat)) (acc : List (String × String)),
      (∃ p ∈ ord, toks.length ≤ p.2) →
      ∃ name idx, (name, idx) ∈ ord ∧ toks.length ≤ idx ∧
        interpretGo toks ord acc =
          .error (.parserError (columnsMismatchMsg idx name toks.length)
            "" "" 0) := by
  intro ord
  induction ord with
  | nil => intro acc h; simp at h
  | cons p rest ih =>
      intro acc h
      obtain ⟨name, idx⟩ := p
      by_cases hle : toks.length ≤ idx
      · exact ⟨name, idx, by simp, hle, by simp [interpretGo, hle]⟩
      · obtain ⟨q, hq, hq2⟩ := h
        rcases List.mem_cons.mp hq with hq1 | hq1
        · exact absurd hq2 (by simp [hq1]; omega)
        · obtain ⟨n2, i2, hm, hl, he⟩ :=
            ih (csvLineInsert acc name (toks.getD idx "")) ⟨q, hq1, hq2⟩
          refine ⟨n2, i2, List.mem_cons_of_mem _ hm, hl, ?_⟩
          simpa [interpretGo, hle] using he

/-- Helper: `interpretGo` succeeds when every directive index is
addressable in the row. -/
theorem interpretGo_ok (toks : List String) :
    ∀ (ord : List (String × Nat)) (acc : List (String × String)),
      (∀ p ∈ ord, p.2 < toks.length) →
      ∃ r, interpretGo toks ord acc = .ok r := by
  intro ord
  induction ord with
  | nil => intro acc _; exact ⟨acc, rfl⟩
  | cons p rest ih =>
      intro acc h
      have hp : p.2 < toks.length := h p (by simp)
      obtain ⟨r, hr⟩ := ih (csvLineInsert acc p.1 (toks.getD p.2 ""))
        (fun q hq => h q (List.mem_cons_of_mem _ hq))
      refine ⟨r, ?_⟩
      obtain ⟨n, i⟩ := p
      simp only [interpretGo, if_neg (Nat.not_le.mpr hp)]
      exact hr

/-- Helper: tokens beyond every directive index do not change the
interpretation. -/
theorem interpretGo_append (toks extra : List String) :
    ∀ (ord : List (String × Nat)) (acc : List (String × String)),
      (∀ p ∈ ord, p.2 < toks.length) →
      interpretGo (toks ++ extra) ord acc = interpretGo toks ord acc := by
  intro ord
  induction ord with
  | nil => intro acc _; rfl
  | cons p rest ih =>
      intro acc h
      obtain ⟨n, i⟩ := p
      have hp : i < toks.length := h (n, i) (by simp)
      have hga : (toks ++ extra).getD i "" = toks.getD i "" := by
        simp [List.getD, List.getElem?_append_left hp]
      simp only [interpretGo, List.length_append,
        if_neg (by omega : ¬ toks.length + extra.length ≤ i),
        if_neg (by omega : ¬ toks.length ≤ i), hga]
      exact ih _ (fun q hq => h q (List.mem_cons_of_mem _ hq))

/-- C9 counterexample: with the directive `label→0, scale→1` (max
zero-based index 1) and the one-token row `["x"]`, the row does *not*
have fewer tokens than the max index (1 < 1 is false), yet `interpret`
fails — the failure condition is `token count ≤ index`, not
`token count < max index`. -/
theorem columns_interpret_counterexample :
    ColumnsOrder.interpret [("label", 0), ("scale", 1)] ["x"] =
      .error (.parserError (columnsMismatchMsg 1 "scale" 1) "" "" 0)
    ∧ ¬ ((["x"] : List String).length <
          maxColIdx [("label", 0), ("scale", 1)]) :=
  ⟨rfl, by decide⟩

/-- C9 (amended): `interpret` fails with a parse error naming an
unaddressable column and the row's token count exactly when the row has
at most `max index` tokens (fewer tokens than `max index + 1`, i.e. some
directive index is `≥` the token count); it succeeds — ignoring tokens
beyond the columns listed — when every directive index is below the token
count; and `CSVLine` access by an absent column name raises
`NoColumnDefinedForTable`. -/
theorem columns_interpret_spec :
    (∀ (ord : ColumnsOrder) (toks : List String),
      (∃ p ∈ ord, toks.length ≤ p.2) →
      ∃ name idx, (name, idx) ∈ ord ∧ toks.length ≤ idx ∧
        ord.interpret toks =
          .error (.parserError (columnsMismatchMsg idx name toks.length)
            "" "" 0))
    ∧ (∀ (ord : ColumnsOrder) (toks : List String),
      (∀ p ∈ ord, p.2 < toks.length) → ∃ r, ord.interpret toks = .ok r)
    ∧ (∀ (ord : ColumnsOrder) (toks extra : List String),
      (∀ p ∈ ord, p.2 < toks.length) →
      ord.interpret (toks ++ extra) = ord.interpret toks)
    ∧ (∀ (l : List (String × String)) (name : String),
      l.find? (fun p => p.1 = name) = none →
      csvLineGet l name = .error (.noColumnDefinedForTable name "" 0)) := by
  refine ⟨?_, ?_, ?_, ?_⟩
  · intro ord toks h; exact interpretGo_error toks ord [] h
  · intro ord toks h; exact interpretGo_ok toks ord [] h
  · intro ord toks extra h; exact interpretGo_append toks extra ord [] h
  · intro l name h; simp [csvLineGet, h]

/-- Witness for `columns_interpret_spec`: the directive `label→0` on the
row `["x"]` ignores the extra tokens `["y", "z"]`. -/
theorem columns_interpret_spec_witness :
    (∀ p ∈ ([("label", 0)] : ColumnsOrder), p.2 < (["x"] : List String).length)
    ∧ ColumnsOrder.interpret [("label", 0)] (["x"] ++ ["y", "z"]) =
        ColumnsOrder.interpret [("label", 0)] ["x"] :=
  ⟨by decide, columns_interpret_spec.2.2.1 [("label", 0)] ["x"] ["y", "z"]
    (by decide)⟩

/-- C8 counterexample: the alias `a → x` of `mAliasEx` makes the lookup
`get_strexpr "a"` succeed on the original, but the copy constructor
copies only the multimap — the copy's alias table is empty, the same
lookup fails, even though the key/value/line entries are identical. -/
theorem metainfo_copy_counterexample :
    mAliasEx.get_strexpr "a" 10 = .ok ("v", 1)
    ∧ (MetaInfo.copyCtor mAliasEx).get_strexpr "a" 10 =
        .error (.noMetadataEntryInFile "a" "" 0)
    ∧ (MetaInfo.copyCtor mAliasEx).entries = mAliasEx.entries :=
  ⟨rfl, rfl, rfl⟩

/-- C8 (amended): copying a `MetaInfo` shares no typed-value cache with
the original (the cache starts empty and is rebuilt per copy) and
preserves all key/value/line entries, but alias bindings are *not* part
of the copied value: copy construction yields an empty alias table and
copy assignment keeps the target's own alias table, so only lookups not
routed through an alias are guaranteed to agree — which they do whenever
the original holds no aliases. -/
theorem metainfo_copy_spec :
    (∀ m : MetaInfo, (MetaInfo.copyCtor m).entries = m.entries
      ∧ (MetaInfo.copyCtor m).cache = []
      ∧ (MetaInfo.copyCtor m).aliases = []
      ∧ (MetaInfo.copyCtor m).revAliases = [])
    ∧ (∀ t s : MetaInfo, (t.assignFrom s).entries = s.entries
      ∧ (t.assignFrom s).cache = []
      ∧ (t.assignFrom s).aliases = t.aliases
      ∧ (t.assignFrom s).revAliases = t.revAliases)
    ∧ (∀ (m : MetaInfo) (name : String) (lineNo : Nat), m.aliases = [] →
      (MetaInfo.copyCtor m).get_strexpr name lineNo =
        m.get_strexpr name lineNo) := by
  refine ⟨fun m => ⟨rfl, rfl, rfl, rfl⟩, fun t s => ⟨rfl, rfl, rfl, rfl⟩,
    fun m name lineNo hal => ?_⟩
  simp [MetaInfo.get_strexpr, MetaInfo.linesFor, MetaInfo.resolve,
    MetaInfo.copyCtor, hal]

/-- Witness for `metainfo_copy_spec`: an alias-free environment with one
entry looks up identically through its copy. -/
theorem metainfo_copy_spec_witness :
    (MetaInfo.empty.set "x" "v" 2).aliases = []
    ∧ (MetaInfo.copyCtor (MetaInfo.empty.set "x" "v" 2)).get_strexpr "x" 5 =
        (MetaInfo.empty.set "x" "v" 2).get_strexpr "x" 5 :=
  ⟨rfl, metainfo_copy_spec.2.2 (MetaInfo.empty.set "x" "v" 2) "x" 5 rfl⟩

/-- C7: in reading mode a data row is forwarded to the caller-supplied
callback iff the block type matches the requested type and the requested
key lies in the current range (`rowAccepted`); rejected rows leave the
state unchanged and return `true` (no error) for *every* callback.  When
the row is accepted the callback receives the environment extended with
the synthetic `@lineNo` entry holding the decimal line number (provided
`@lineNo` is not aliased away, which the engine never does), and that
entry is dropped again after the callback returns: the resulting
environment holds no `@lineNo` entry. -/
theorem handle_csv_spec (st : ParsingState) (line : String) (lineNo : Nat) :
    (rowAccepted st = false →
      ∀ cllb, st.handle_csv cllb line lineNo = (true, st))
    ∧ (rowAccepted st = true →
      st.md.aliases.find? (fun p => p.1 = "@lineNo") = none →
      ∀ cllb,
        st.handle_csv cllb line lineNo =
          (cllb (st.md.set "@lineNo" (Nat.repr lineNo) 0) lineNo line,
            { st with
                md := (st.md.set "@lineNo" (Nat.repr lineNo) 0).drop
                  "@lineNo" })
        ∧ ("@lineNo", 0, Nat.repr lineNo) ∈
            (st.md.set "@lineNo" (Nat.repr lineNo) 0).entries
        ∧ ∀ e ∈ ((st.md.set "@lineNo" (Nat.repr lineNo) 0).drop
            "@lineNo").entries, e.1 ≠ "@lineNo") := by
  constructor
  · intro hrej cllb
    unfold ParsingState.handle_csv
    by_cases hty : st.cType ≠ st.forType
    · simp [hty]
    · by_cases h2 : (VT.is_set st.cVal.vFrom
          && decide (st.forKey < st.cVal.vFrom)) = true
      · simp [hty, h2]
      · by_cases h3 : (VT.is_set st.cVal.vTo &&
            (decide (st.cVal.vTo < st.forKey) || st.cVal.vTo == st.forKey))
              = true
        · simp [hty, h2, h3]
        · exfalso
          have hacc : rowAccepted st = true := by
            have ha : (st.cType == st.forType) = true := by
              simp [beq_iff_eq, not_not.mp hty]
            simp only [Bool.not_eq_true] at h2 h3
            simp only [rowAccepted, ha, h2, h3, Bool.not_false, Bool.and_self]
          rw [hacc] at hrej
          simp at hrej
  · intro hacc hal cllb
    have ha := hacc
    simp only [rowAccepted, Bool.and_eq_true, Bool.not_eq_true'] at ha
    obtain ⟨⟨ha1, ha2⟩, ha3⟩ := ha
    have heq : st.cType = st.forType := by simpa using ha1
    have h1 : ¬ st.cType ≠ st.forType := not_not_intro heq
    refine ⟨?_, ?_, ?_⟩
    · unfold ParsingState.handle_csv
      rw [if_neg h1, if_neg (by simp [ha2]), if_neg (by simp [ha3])]
    · have hres : st.md.resolve "@lineNo" = "@lineNo" := by
        simp [MetaInfo.resolve, hal]
      simp [MetaInfo.set, hres]
    · intro e he
      simp only [MetaInfo.drop] at he
      have := List.of_mem_filter he
      simpa using this

/-- Witness for `handle_csv_spec`: on `pStateEx` (type `"T"`, range
`[10, 20)`, request `("T", 15)`) the row is accepted and the constantly
true callback observes the `@lineNo` entry for line 4. -/
theorem handle_csv_spec_witness :
    (rowAccepted pStateEx = true
      ∧ pStateEx.md.aliases.find? (fun p => p.1 = "@lineNo") = none)
    ∧ pStateEx.handle_csv (fun _ _ _ => true) "r" 4 =
        ((fun (_ : MetaInfo) (_ : Nat) (_ : String) => true)
            (pStateEx.md.set "@lineNo" (Nat.repr 4) 0) 4 "r",
          { pStateEx with
              md := (pStateEx.md.set "@lineNo" (Nat.repr 4) 0).drop
                "@lineNo" })
    ∧ ("@lineNo", 0, Nat.repr 4) ∈
        (pStateEx.md.set "@lineNo" (Nat.repr 4) 0).entries :=
  ⟨⟨rfl, rfl⟩,
    ((handle_csv_spec pStateEx "r" 4).2 rfl rfl (fun _ _ _ => true)).1,
    ((handle_csv_spec pStateEx "r" 4).2 rfl rfl (fun _ _ _ => true)).2.1⟩

/-- Helper: on a list sorted by key, the `begin()..upper_bound(key)`
prefix (`takeWhile`) is exactly the set of pairs with key `≤ key`
(`filter`). -/
theorem takeWhile_eq_filter_sorted {α : Type} (k : Nat) :
    ∀ l : List (Nat × DocumentEntry α),
      l.Pairwise (fun a b => a.1 ≤ b.1) →
      l.takeWhile (fun p => decide (p.1 ≤ k)) =
        l.filter (fun p => decide (p.1 ≤ k)) := by
  intro l
  induction l with
  | nil => intro _; rfl
  | cons a t ih =>
      intro h
      rcases List.pairwise_cons.mp h with ⟨ha, ht⟩
      by_cases hk : a.1 ≤ k
      · simp only [List.takeWhile_cons, List.filter_cons, decide_eq_true hk,
          if_pos trivial]
        rw [ih ht]
      · simp only [List.takeWhile_cons, List.filter_cons,
          decide_eq_false hk]
        simp only [Bool.false_eq_true, if_false]
        symm
        rw [List.filter_eq_nil_iff]
        intro p hp
        simp only [decide_eq_true_eq]
        have := ha p hp
        omega

/-- Helper: the first hit of a backward walk is the last hit of the
forward order. -/
theorem find?_reverse_eq_getLast?_filter {β : Type} (p : β → Bool) :
    ∀ l : List β, l.reverse.find? p = (l.filter p).getLast? := by
  intro l
  induction l using List.reverseRecOn with
  | nil => rfl
  | append_singleton l a ih =>
      rw [List.reverse_append, List.reverse_singleton, List.singleton_append,
        List.filter_append]
      by_cases hp : p a = true
      · simp [List.find?_cons, hp, List.getLast?_concat]
      · rw [List.find?_cons_of_neg _ hp]
        have hfa : List.filter p [a] = [] := by simp [hp]
        rw [hfa, List.append_nil]
        exact ih

/-- Helper: in a list sorted by key, the last element has the greatest
key. -/
theorem pairwise_getLast_max {α : Type} :
    ∀ (q : List (Nat × DocumentEntry α)) (r : Nat × DocumentEntry α),
      q.Pairwise (fun a b => a.1 ≤ b.1) → q.getLast? = some r →
      ∀ p ∈ q, p.1 ≤ r.1 := by
  intro q
  induction q using List.reverseRecOn with
  | nil => intro r _ hr; simp at hr
  | append_singleton l a _ =>
      intro r h hr p hp
      rw [List.getLast?_concat] at hr
      have har : a = r := by simpa using hr
      subst har
      rw [List.pairwise_append] at h
      rcases List.mem_append.mp hp with hp1 | hp1
      · exact h.2.2 p hp1 a (by simp)
      · simp at hp1
        subst hp1
        exact le_refl _

/-- Helper: the stale test of `updates` is the negation of
"`validTo` unset or strictly past the key". -/
theorem not_staleAt_iff {α : Type} (k : Nat) (e : DocumentEntry α) :
    (!staleAt k e) = (!VT.is_set e.validTo || decide (k < e.validTo)) := by
  rw [Bool.eq_iff_iff]
  simp [staleAt, VT.is_set, VT.less, VT.unset]
  omega

/-- Helper: a per-type list obtained from a well-formed index is sorted
by key. -/
theorem findType_sorted {α : Type} (idx : ValidityIndex α) (t : String)
    (l : List (Nat × DocumentEntry α)) (hwf : VIdxWF idx)
    (hl : idx.findType t = some l) :
    l.Pairwise (fun a b => a.1 ≤ b.1) := by
  simp only [ValidityIndex.findType, Option.map_eq_some'] at hl
  obtain ⟨q, hq, rfl⟩ := hl
  exact hwf q (List.mem_of_find?_eq_some hq)

/-- Helper: on a known type, `updates` is the filter of the stored list
by "`from ≤ key` and not stale". -/
theorem updates_filter_eq {α : Type} (idx : ValidityIndex α) (t : String)
    (k : Nat) (lenient : Bool) (l : List (Nat × DocumentEntry α))
    (hwf : VIdxWF idx) (hl : idx.findType t = some l) :
    idx.updates t k lenient =
      .ok (l.filter (fun p => decide (p.1 ≤ k)
        && (!VT.is_set p.2.validTo || decide (k < p.2.validTo)))) := by
  have hsorted := findType_sorted idx t l hwf hl
  simp only [ValidityIndex.updates, hl]
  congr 1
  rw [takeWhile_eq_filter_sorted k l hsorted, List.filter_filter]
  exact List.filter_congr (fun p _ => by
    rw [not_staleAt_iff]
    exact Bool.and_comm _ _)

/-- C1: `updates(t, k, lenient)` returns the empty list when `t` is
unknown and `lenient` is set, fails `UnknownDataType` when `t` is unknown
and `lenient` is not set, and otherwise returns exactly the stored
entries with `from ≤ k` whose `validTo` is unset or strictly greater than
`k` (a set `validTo` equal to `k` is stale), as the order-preserving
sublist of the per-type list — which is sorted ascending by `from` with
insertion order preserved among equal `from`. -/
theorem updates_spec {α : Type} (idx : ValidityIndex α) (t : String)
    (k : Nat) (lenient : Bool) (hwf : VIdxWF idx) :
    (idx.findType t = none →
      idx.updates t k lenient =
        if lenient then .ok [] else .error (.unknownDataType t))
    ∧ (∀ l, idx.findType t = some l →
        idx.updates t k lenient =
          .ok (l.filter (fun p => decide (p.1 ≤ k)
            && (!VT.is_set p.2.validTo || decide (k < p.2.validTo))))
        ∧ (l.filter (fun p => decide (p.1 ≤ k)
            && (!VT.is_set p.2.validTo || decide (k < p.2.validTo)))).Pairwise
            (fun a b => a.1 ≤ b.1)) := by
  constructor
  · intro hn
    simp [ValidityIndex.updates, hn]
  · intro l hl
    exact ⟨updates_filter_eq idx t k lenient l hwf hl,
      (findType_sorted idx t l hwf hl).filter _⟩

/-- Witness for `updates_spec`: scenario S6 — on `idxS6`,
`updates(Y, 25)` keeps only `Q` (the entry `P` with `validTo = 20 ≤ 25`
is stale) and `updates(Y, 15)` keeps both in insertion order. -/
theorem updates_spec_witness :
    VIdxWF idxS6
    ∧ idxS6.updates "Y" 25 false = .ok [(10, ⟨"Q", VT.unset, ()⟩)]
    ∧ idxS6.updates "Y" 15 false =
        .ok [(10, ⟨"P", 20, ()⟩), (10, ⟨"Q", VT.unset, ()⟩)] := by
  have hwf : VIdxWF idxS6 := by
    intro p hp
    simp only [idxS6, ValidityIndex.add_entry, ValidityIndex.empty,
      addToTypes, mmapEmplace] at hp
    simp at hp
    rw [hp]
    norm_num
  refine ⟨hwf, ?_, ?_⟩
  · have h := ((updates_spec idxS6 "Y" 25 false hwf).2
      [(10, ⟨"P", 20, ()⟩), (10, ⟨"Q", VT.unset, ()⟩)] rfl).1
    rw [h]; rfl
  · have h := ((updates_spec idxS6 "Y" 15 false hwf).2
      [(10, ⟨"P", 20, ()⟩), (10, ⟨"Q", VT.unset, ()⟩)] rfl).1
    rw [h]; rfl

/-- C2: `latest(t, k)` fails `UnknownDataType` when `t` has no per-type
index; otherwise, among the stored entries with `from ≤ k` whose
`validTo` is unset or strictly greater than `k`, it returns the *last*
one in index order — the greatest `from`, and among qualifying entries of
equal `from` the latest-inserted — and fails `NoCalibrationData` when no
entry qualifies. -/
theorem latest_spec {α : Type} (idx : ValidityIndex α) (t : String)
    (k : Nat) (hwf : VIdxWF idx) :
    (idx.findType t = none →
      idx.latest t k = .error (.unknownDataType t))
    ∧ (∀ l, idx.findType t = some l →
        (l.filter (fun p => decide (p.1 ≤ k) && validAt k p.2) = [] →
          idx.latest t k = .error (.noCalibrationData t k))
        ∧ (∀ r, (l.filter (fun p => decide (p.1 ≤ k)
              && validAt k p.2)).getLast? = some r →
            idx.latest t k = .ok r
            ∧ ∀ p ∈ l.filter (fun p => decide (p.1 ≤ k) && validAt k p.2),
                p.1 ≤ r.1)) := by
  constructor
  · intro hn
    simp [ValidityIndex.latest, hn]
  · intro l hl
    have hsorted : l.Pairwise (fun a b => a.1 ≤ b.1) := by
      simp only [ValidityIndex.findType, Option.map_eq_some'] at hl
      obtain ⟨q, hq, rfl⟩ := hl
      exact hwf q (List.mem_of_find?_eq_some hq)
    have hfind : (l.takeWhile (fun p => decide (p.1 ≤ k))).reverse.find?
        (fun p => validAt k p.2)
        = (l.filter (fun p => decide (p.1 ≤ k) && validAt k p.2)).getLast?
        := by
      rw [takeWhile_eq_filter_sorted k l hsorted,
        find?_reverse_eq_getLast?_filter, List.filter_filter]
      congr 1
      exact List.filter_congr (fun p _ => Bool.and_comm _ _)
    constructor
    · intro hempty
      simp only [ValidityIndex.latest, hl, hfind, hempty]
      rfl
    · intro r hr
      refine ⟨by simp only [ValidityIndex.latest, hl, hfind, hr], ?_⟩
      exact pairwise_getLast_max _ r (hsorted.filter _) hr

/-- Witness for `latest_spec`: scenario S5 — on `idxS5`, `latest(X, 10)`
returns the later-inserted `B` (tie on `from = 10`) and `latest(X, 20)`
returns `A` (`B` is stale past 15). -/
theorem latest_spec_witness :
    VIdxWF idxS5
    ∧ idxS5.latest "X" 10 = .ok (10, ⟨"B", 15, ()⟩)
    ∧ idxS5.latest "X" 20 = .ok (10, ⟨"A", VT.unset, ()⟩) := by
  have hwf : VIdxWF idxS5 := by
    intro p hp
    simp only [idxS5, ValidityIndex.add_entry, ValidityIndex.empty,
      addToTypes, mmapEmplace] at hp
    simp at hp
    rw [hp]
    norm_num
  refine ⟨hwf, ?_, ?_⟩
  · exact (((latest_spec idxS5 "X" 10 hwf).2
      [(10, ⟨"A", VT.unset, ()⟩), (10, ⟨"B", 15, ()⟩)] rfl).2
      (10, ⟨"B", 15, ()⟩) rfl).1
  · exact (((latest_spec idxS5 "X" 20 hwf).2
      [(10, ⟨"A", VT.unset, ()⟩), (10, ⟨"B", 15, ()⟩)] rfl).2
      (10, ⟨"A", VT.unset, ()⟩) rfl).1

/-- C10: for the default integral `ValidityTraits`, `0` is the
distinguished unset value — `is_set 0` is false; a range with `from = 0`
is non-empty regardless of its `to`; intersection treats a `0` bound as
absent on either side; and an index entry whose `validTo` is `0` is never
filtered out of `updates` as stale, for any queried key it starts at or
before. -/
theorem unset_zero_spec :
    VT.is_set 0 = false
    ∧ (∀ t : Nat, VRange.nonEmpty ⟨0, t⟩ = true)
    ∧ (∀ a b : VRange,
        (a.vFrom = 0 → (a.inter b).vFrom = b.vFrom)
        ∧ (b.vFrom = 0 → (a.inter b).vFrom = a.vFrom)
        ∧ (a.vTo = 0 → (a.inter b).vTo = b.vTo)
        ∧ (b.vTo = 0 → (a.inter b).vTo = a.vTo))
    ∧ (∀ (α : Type) (idx : ValidityIndex α) (t : String) (k : Nat)
        (l : List (Nat × DocumentEntry α)) (p : Nat × DocumentEntry α),
        VIdxWF idx → idx.findType t = some l → p ∈ l →
        p.2.validTo = 0 → p.1 ≤ k →
        ∃ res, idx.updates t k false = .ok res ∧ p ∈ res) := by
  refine ⟨rfl, fun t => rfl, fun a b => ?_, ?_⟩
  · refine ⟨fun h => ?_, fun h => ?_, fun h => ?_, fun h => ?_⟩ <;>
      · simp only [VRange.inter, VT.is_set, VT.unset, VT.less, h, ne_eq]
        split_ifs <;> simp_all
  · intro α idx t k l p hwf hl hp hto hk
    have h := updates_filter_eq idx t k false l hwf hl
    refine ⟨_, h, ?_⟩
    rw [List.mem_filter]
    refine ⟨hp, ?_⟩
    simp [hk, VT.is_set, VT.unset, hto]

/-- Witness for `unset_zero_spec`: on `idxS6` the entry
`Q = (10, validTo unset)` is in `updates(Y, 1000)` — never stale. -/
theorem unset_zero_spec_witness :
    (VIdxWF idxS6
      ∧ idxS6.findType "Y" =
          some [(10, ⟨"P", 20, ()⟩), (10, ⟨"Q", VT.unset, ()⟩)]
      ∧ ((10 : Nat), (⟨"Q", VT.unset, ()⟩ : DocumentEntry Unit)).2.validTo = 0)
    ∧ ∃ res, idxS6.updates "Y" 1000 false = .ok res
        ∧ ((10 : Nat), (⟨"Q", VT.unset, ()⟩ : DocumentEntry Unit)) ∈ res := by
  have hwf : VIdxWF idxS6 := by
    intro p hp
    simp only [idxS6, ValidityIndex.add_entry, ValidityIndex.empty,
      addToTypes, mmapEmplace] at hp
    simp at hp
    rw [hp]
    norm_num
  refine ⟨⟨hwf, rfl, rfl⟩, ?_⟩
  exact unset_zero_spec.2.2.2 Unit idxS6 "Y" 1000
    [(10, ⟨"P", 20, ()⟩), (10, ⟨"Q", VT.unset, ()⟩)]
    (10, ⟨"Q", VT.unset, ()⟩) hwf rfl (by simp) rfl (by omega)

/-- Helper: replacing a list element by one with the same `defaults` does
not change the list of defaults. -/
theorem map_defaults_set :
    ∀ (l : List Loader) (i : Nat) (x : Loader),
      (∀ y, l[i]? = some y → x.defaults = y.defaults) →
      (l.set i x).map (fun ld => ld.defaults) =
        l.map (fun ld => ld.defaults) := by
  intro l
  induction l with
  | nil => intro i x _; simp
  | cons a t ih =>
      intro i x h
      cases i with
      | zero =>
          have := h a (by simp)
          simp [List.set, this]
      | succ n =>
          simp only [List.set, List.map_cons]
          rw [ih n x (fun y hy => h y (by simpa using hy))]

/-- Helper: writing the saved defaults back restores the defaults list. -/
theorem set_restore_defaults (l : List Loader) (i : Nat) (ldr : Loader)
    (hi : l[i]? = some ldr) :
    (l.set i { ldr with defaults := ldr.defaults }).map (fun x => x.defaults)
      = l.map (fun x => x.defaults) :=
  map_defaults_set l i _ (fun y hy => by rw [hi] at hy; cases hy; rfl)

/-- Helper: `Documents::addWith` leaves every loader's defaults as it
found them, on all exit paths. -/
theorem addWith_defaults_eq (st : DocState) (docID : String)
    (ovT : Bool × String) (ovV : Bool × VRange) (ovM : Bool × MetaInfo)
    (i : Nat) :
    (Documents.addWith st docID ovT ovV ovM i).1.loaders.map
      (fun x => x.defaults) = st.loaders.map (fun x => x.defaults) := by
  unfold Documents.addWith
  split
  · rfl
  · rename_i ldr hi
    have hset := set_restore_defaults st.loaders i ldr hi
    split
    · simpa using hset
    · split
      · simpa using hset
      · simpa using hset

/-- C4: on every exit path of `Documents::add` (normal return, parser
error, I/O error, any other thrown error, and also the no-loader early
return) and of the single-update loading routine
`Documents::load_update_into`, every loader's `defaults` record — data
type, validity range and base metadata — equals the value it held on
entry. -/
theorem defaults_restored_spec :
    (∀ (st : DocState) (docID : String) (ovT : Bool × String)
        (ovV : Bool × VRange) (ovM : Bool × MetaInfo) (lo : Option Nat),
      (Documents.add st docID ovT ovV ovM lo).1.loaders.map
          (fun x => x.defaults)
        = st.loaders.map (fun x => x.defaults))
    ∧ (∀ (st : DocState) (upd : Nat × DocumentEntry DocumentLoadingState)
        (forKey : Nat),
      (Documents.load_update_into st upd forKey).1.loaders.map
          (fun x => x.defaults)
        = st.loaders.map (fun x => x.defaults)) := by
  constructor
  · intro st docID ovT ovV ovM lo
    cases lo with
    | some i => exact addWith_defaults_eq st docID ovT ovV ovM i
    | none =>
        unfold Documents.add
        cases hs : selectLoader st.loaders docID with
        | none => rfl
        | some i => exact addWith_defaults_eq st docID ovT ovV ovM i
  · intro st upd forKey
    unfold Documents.load_update_into
    split
    · rfl
    · rename_i ldr hi
      have hset := set_restore_defaults st.loaders upd.2.auxInfo.loaderIdx
        ldr hi
      split
      · simpa using hset
      · simpa using hset

/-- Helper: one step of the block loop when both checks pass. -/
theorem processBlocks_cons_good (docID : String) (li : Nat)
    (dfts : Defaults) (b : DataBlock) (rest : List DataBlock)
    (idx : ValidityIndex DocumentLoadingState) (h1 : ¬ b.dataType = "")
    (h2 : (!VT.is_set b.validityRange.vFrom &&
      !VT.is_set b.validityRange.vTo) = false) :
    processBlocks docID li dfts (b :: rest) idx =
      processBlocks docID li dfts rest
        (idx.add_entry docID b.dataType b.validityRange.vFrom
          b.validityRange.vTo ⟨dfts, li, b.blockBgn⟩) := by
  simp [processBlocks, h1, h2]

/-- Helper: when every block passes both checks, the block loop indexes
them all in order and reports success. -/
theorem processBlocks_ok (docID : String) (li : Nat) (dfts : Defaults) :
    ∀ (blocks : List DataBlock) (idx : ValidityIndex DocumentLoadingState),
      (∀ b ∈ blocks, goodBlock b = true) →
      processBlocks docID li dfts blocks idx =
        (blocks.foldl (fun ix b => ix.add_entry docID b.dataType
            b.validityRange.vFrom b.validityRange.vTo ⟨dfts, li, b.blockBgn⟩)
          idx, .ok ()) := by
  intro blocks
  induction blocks with
  | nil => intro idx _; rfl
  | cons b rest ih =>
      intro idx h
      have hb := h b (by simp)
      simp only [goodBlock, Bool.and_eq_true, decide_eq_true_eq, ne_eq] at hb
      have h2 : (!VT.is_set b.validityRange.vFrom &&
          !VT.is_set b.validityRange.vTo) = false := by
        rw [← Bool.not_or]
        simp [hb.2]
      rw [processBlocks_cons_good docID li dfts b rest idx hb.1 h2,
        List.foldl_cons]
      exact ih _ (fun x hx => h x (by simp [hx]))

/-- Helper: a block failing a check makes the block loop raise
`LoaderAPIError`. -/
theorem processBlocks_err (docID : String) (li : Nat) (dfts : Defaults) :
    ∀ (blocks : List DataBlock) (idx : ValidityIndex DocumentLoadingState),
      (∃ b ∈ blocks, goodBlock b = false) →
      ∃ m idx2, processBlocks docID li dfts blocks idx =
        (idx2, .error (.loaderAPIError m)) := by
  intro blocks
  induction blocks with
  | nil => intro idx h; simp at h
  | cons b rest ih =>
      intro idx h
      by_cases h1 : b.dataType = ""
      · exact ⟨emptyTypeMsg docID, idx, by simp [processBlocks, h1]⟩
      · by_cases h2 : (!VT.is_set b.validityRange.vFrom &&
            !VT.is_set b.validityRange.vTo) = true
        · exact ⟨emptyRangeMsg docID, idx, by
            simp only [processBlocks, if_neg h1, if_pos h2]⟩
        · have h2f : (!VT.is_set b.validityRange.vFrom &&
              !VT.is_set b.validityRange.vTo) = false :=
            Bool.not_eq_true _ |>.mp h2
          have hbg : goodBlock b = true := by
            simp only [goodBlock, Bool.and_eq_true, decide_eq_true_eq, ne_eq]
            refine ⟨h1, ?_⟩
            rw [← Bool.not_or, Bool.not_eq_false'] at h2f
            simpa using h2f
          obtain ⟨q, hq, hq2⟩ := h
          rcases List.mem_cons.mp hq with rfl | hq1
          · rw [hbg] at hq2; exact absurd hq2 (by simp)
          · obtain ⟨m, idx2, hm⟩ := ih
              (idx.add_entry docID b.dataType b.validityRange.vFrom
                b.validityRange.vTo ⟨dfts, li, b.blockBgn⟩) ⟨q, hq1, hq2⟩
            exact ⟨m, idx2, by
              rw [processBlocks_cons_good docID li dfts b rest idx h1 h2f]
              exact hm⟩

/-- C3 counterexample: `cexBehavior` returns one block with the non-empty
type `"T"` and the *empty* validity range `[5, 5)` (both bounds set,
`nonEmpty` false).  The claim says `add` must raise `LoaderAPIError` for
an empty block range; the code instead checks only that not both bounds
are unset, silently indexes the empty-range block, and returns true. -/
theorem documents_add_counterexample :
    VRange.nonEmpty ⟨5, 5⟩ = false
    ∧ (Documents.add cexDocState "doc" (false, "") (false, ⟨0, 0⟩)
        (false, MetaInfo.empty) none).2 = .ok true
    ∧ (Documents.add cexDocState "doc" (false, "") (false, ⟨0, 0⟩)
        (false, MetaInfo.empty) none).1.validityIndex.findType "T" =
        some [(5, ⟨"doc", 5, ⟨⟨"", ⟨0, 0⟩, MetaInfo.empty⟩, 0, 3⟩⟩)] :=
  ⟨rfl, rfl, rfl⟩

/-- C3 (amended): `Documents::add` with a null loader argument selects
the first registered loader whose `can_handle(docID)` is true, and
returns false if no loader accepts; for each block returned by
`get_doc_struct` it throws `LoaderAPIError` if the block's data type is
the empty string or if *both bounds of the block's validity range are
unset* (an empty range with set bounds, e.g. `[5, 5)`, is *not*
rejected); otherwise every block is entered into the validity index with
the overridden loader defaults captured in the entry's aux state, and
`add` returns true iff at least one block was indexed. -/
theorem documents_add_spec :
    (∀ (st : DocState) (docID : String) (ovT : Bool × String)
        (ovV : Bool × VRange) (ovM : Bool × MetaInfo),
      selectLoader st.loaders docID = none →
      Documents.add st docID ovT ovV ovM none = (st, .ok false))
    ∧ (∀ (st : DocState) (docID : String) (ovT : Bool × String)
        (ovV : Bool × VRange) (ovM : Bool × MetaInfo) (i : Nat),
      selectLoader st.loaders docID = some i →
      Documents.add st docID ovT ovV ovM none =
        Documents.add st docID ovT ovV ovM (some i))
    ∧ (∀ (st : DocState) (docID : String) (ovT : Bool × String)
        (ovV : Bool × VRange) (ovM : Bool × MetaInfo) (i : Nat)
        (ldr : Loader) (blocks : List DataBlock),
      st.loaders[i]? = some ldr →
      ldr.behavior.get_doc_struct
          (applyOverrides ldr.defaults ovT ovV ovM) docID =
        (applyOverrides ldr.defaults ovT ovV ovM, .ok blocks) →
      ((∀ b ∈ blocks, goodBlock b = true) →
        (Documents.add st docID ovT ovV ovM (some i)).2 =
            .ok (!blocks.isEmpty)
        ∧ (Documents.add st docID ovT ovV ovM (some i)).1.validityIndex =
            blocks.foldl (fun ix b => ix.add_entry docID b.dataType
                b.validityRange.vFrom b.validityRange.vTo
                ⟨applyOverrides ldr.defaults ovT ovV ovM, i, b.blockBgn⟩)
              st.validityIndex)
      ∧ ((∃ b ∈ blocks, goodBlock b = false) →
        ∃ m, (Documents.add st docID ovT ovV ovM (some i)).2 =
          .error (.loaderAPIError m))) := by
  refine ⟨?_, ?_, ?_⟩
  · intro st docID ovT ovV ovM hsel
    simp [Documents.add, hsel]
  · intro st docID ovT ovV ovM i hsel
    simp [Documents.add, hsel]
  · intro st docID ovT ovV ovM i ldr blocks hi hget
    constructor
    · intro hgood
      have hpb := processBlocks_ok docID i
        (applyOverrides ldr.defaults ovT ovV ovM) blocks st.validityIndex
        hgood
      constructor
      · simp only [Documents.add, Documents.addWith, hi, hget, hpb]
      · simp only [Documents.add, Documents.addWith, hi, hget, hpb]
    · intro hbad
      obtain ⟨m, idx2, hpb⟩ := processBlocks_err docID i
        (applyOverrides ldr.defaults ovT ovV ovM) blocks st.validityIndex
        hbad
      refine ⟨m, ?_⟩
      simp only [Documents.add, Documents.addWith, hi, hget, hpb]
      rfl

/-- Witness for `documents_add_spec`: `wLoader` returns the single good
block `("T", [10, ∞), start 2)`; `add` indexes it with the (pre-override)
defaults in the aux payload and returns true. -/
theorem documents_add_spec_witness :
    (wDocState.loaders[0]? = some wLoader
      ∧ wLoader.behavior.get_doc_struct
          (applyOverrides wLoader.defaults (false, "") (false, ⟨0, 0⟩)
            (false, MetaInfo.empty)) "doc" =
        (applyOverrides wLoader.defaults (false, "") (false, ⟨0, 0⟩)
          (false, MetaInfo.empty), .ok [⟨"T", ⟨10, VT.unset⟩, 2⟩])
      ∧ (∀ b ∈ [(⟨"T", ⟨10, VT.unset⟩, 2⟩ : DataBlock)], goodBlock b = true))
    ∧ (Documents.add wDocState "doc" (false, "") (false, ⟨0, 0⟩)
          (false, MetaInfo.empty) (some 0)).2 =
        .ok (!([(⟨"T", ⟨10, VT.unset⟩, 2⟩ : DataBlock)]).isEmpty)
    ∧ (Documents.add wDocState "doc" (false, "") (false, ⟨0, 0⟩)
          (false, MetaInfo.empty) (some 0)).1.validityIndex =
        ([(⟨"T", ⟨10, VT.unset⟩, 2⟩ : DataBlock)]).foldl
          (fun ix b => ix.add_entry "doc" b.dataType
              b.validityRange.vFrom b.validityRange.vTo
              ⟨applyOverrides wLoader.defaults (false, "") (false, ⟨0, 0⟩)
                (false, MetaInfo.empty), 0, b.blockBgn⟩)
          wDocState.validityIndex := by
  have h := (documents_add_spec.2.2 wDocState "doc" (false, "")
    (false, ⟨0, 0⟩) (false, MetaInfo.empty) 0 wLoader
    [⟨"T", ⟨10, VT.unset⟩, 2⟩] rfl rfl).1 (by decide)
  exact ⟨⟨rfl, rfl, by decide⟩, h.1, h.2⟩

end Sdc
